import Mathlib

/-!
Verification of the libev chat-server example (`src/chat-server/chat-server.c`).

The server is a single-threaded TCP broadcast relay.  We give a shallow
embedding: sockets are `Nat` identifiers, the operating-system results of
`recv`, `accept`, `send`, `calloc` and the startup socket calls are oracle
inputs, and each callback is a pure function from the current server state
and its oracle inputs to the next state together with a trace of observable
actions (sends, watcher stops, socket closes, diagnostics).
-/

namespace ChatServer

/-- Diagnostic messages the program can emit (`perror` / `socket_perror` /
`printf` call sites, identified by which call site produced them). -/
inductive LogMsg where
  /-- `perror ("Got invalid event")` in `accept_cb`. -/
  | invalidEvent
  /-- `socket_perror ("Accept error")` in `accept_cb`. -/
  | acceptError
  /-- `perror ("malloc failed")` in `accept_cb`. -/
  | mallocFailed
  /-- `socket_perror ("socket")` in `main`. -/
  | sockFail
  /-- `socket_perror ("ioctlsocket")` in `main`. -/
  | ioctlFail
  /-- `socket_perror ("setsockopt")` in `main`. -/
  | setsockoptFail
  /-- `socket_perror ("bind")` in `main`. -/
  | bindFail
  /-- `socket_perror ("listen")` in `main`. -/
  | listenFail
deriving DecidableEq, Repr

/-- Observable actions performed by the program, in program order. -/
inductive Action where
  /-- A diagnostic message. -/
  | log (msg : LogMsg)
  /-- `printf ("Accepted connection from %s", ...)`: the connect notice,
  carrying the peer address from `accept`'s `client_addr` out-parameter. -/
  | notice (addr : Nat)
  /-- `send (client->socketd, buffer, read, 0)`: a send of `data` to socket
  `peer`; `ok` is the outcome reported by the OS (the program ignores it). -/
  | send (peer : Nat) (data : List Nat) (ok : Bool)
  /-- `ev_io_stop` on the read watcher of `peer`. -/
  | stopWatcher (peer : Nat)
  /-- `closesocket s`. -/
  | closeSock (s : Nat)
  /-- `free` of the `client_t` object of `peer`. -/
  | freeClient (peer : Nat)
  /-- `ioctlsocket (s, FIONBIO, &nonblock_mode)`: putting socket `s` into
  non-blocking mode. -/
  | setNonBlocking (s : Nat)
deriving DecidableEq, Repr

/-- The mutable state of the server process, as seen between callbacks.

`registry` is the `client_tailq_head` tail queue, in insertion order, each
client identified by its `socketd`.  `activeWatchers` is the set of client
sockets whose `ev_io` read watcher has been started and not stopped.
`openSockets` and `nonBlocking` are OS-level socket state: the handles that
are currently open, and those currently in non-blocking mode. -/
structure ServerState where
  registry : List Nat
  activeWatchers : List Nat
  openSockets : List Nat
  nonBlocking : List Nat
deriving DecidableEq, Repr

/-- One result of a `recv` call on a non-blocking socket.

`recv` returns either a byte count `read ≥ 0` together with the bytes read
(`bytes data`, with `read = data.length`; a length of `0` is an orderly
close), or `read < 0` with `WSAGetLastError () = WSAEWOULDBLOCK`
(`wouldBlock`), or `read < 0` with any other error code (`err`). -/
inductive RecvResult where
  | bytes (data : List Nat)
  | wouldBlock
  | err
deriving DecidableEq, Repr

/-- The teardown path of `read_cb` (lines 156-166): `ev_io_stop` removes the
client's watcher, `TAILQ_REMOVE` removes its tailq entry, and `closesocket`
closes (hence destroys) the socket handle, erasing its OS-level mode state.
Tailq entries, watchers and handles are each physically unique, so set
removal is exact. -/
def teardown (st : ServerState) (c : Nat) : ServerState :=
  { registry := st.registry.erase c
    activeWatchers := st.activeWatchers.filter (fun q => q ≠ c)
    openSockets := st.openSockets.filter (fun q => q ≠ c)
    nonBlocking := st.nonBlocking.filter (fun q => q ≠ c) }

/-- The actions emitted by the teardown path of `read_cb`:
`ev_io_stop`, then `closesocket`, then `free`. -/
def teardownActs (c : Nat) : List Action :=
  [Action.stopWatcher c, Action.closeSock c, Action.freeClient c]

/-- The `TAILQ_FOREACH` broadcast loop of `read_cb` (lines 170-177): one
`send` of the received bytes to each registered client other than the
reader, in tailq order.  `sendOk` is the OS's outcome for each send; the
program discards it, so it only appears in the recorded action. -/
def broadcast (registry : List Nat) (c : Nat) (data : List Nat)
    (sendOk : Nat → List Nat → Bool) : List Action :=
  (registry.filter (fun q => q ≠ c)).map
    (fun q => Action.send q data (sendOk q data))

/-- `read_cb` (lines 133-179).  `c` is `this_client->socketd`; `recvs` is
the oracle sequence of successive `recv` results for this readiness event.
The loop body: a negative result with `WSAEWOULDBLOCK` breaks out of the
loop; any result `read ≤ 0` (orderly close, or negative with another error)
takes the teardown path and returns; a positive result broadcasts the bytes
to every other registered client and iterates. -/
def read_cb (st : ServerState) (c : Nat) (recvs : List RecvResult)
    (sendOk : Nat → List Nat → Bool) : ServerState × List Action :=
  match recvs with
  | [] => (st, [])
  | RecvResult.wouldBlock :: _ => (st, [])
  | RecvResult.err :: _ => (teardown st c, teardownActs c)
  | RecvResult.bytes data :: rest =>
    if data.isEmpty then
      (teardown st c, teardownActs c)
    else
      ((read_cb st c rest sendOk).1,
        broadcast st.registry c data sendOk ++ (read_cb st c rest sendOk).2)

/-- OS-level effect of a successful `accept` on listening socket `srv`
returning the fresh handle `s`: the handle becomes open and — per the
WinSock `accept` contract, under which the returned socket has the same
properties as the listening socket — it is in non-blocking mode exactly
when the listening socket is. -/
def osAccept (st : ServerState) (srv : Nat) (s : Nat) : ServerState :=
  { st with
    openSockets := st.openSockets ++ [s]
    nonBlocking :=
      if srv ∈ st.nonBlocking then st.nonBlocking ++ [s] else st.nonBlocking }

/-- `accept_cb` (lines 185-231).  `srv` is `w->socketd`; `revErr` is whether
`EV_ERROR & revents`; `acceptRes` is the `accept` result (`none` for
`INVALID_SOCKET`); `allocOk` is whether `calloc` succeeds; `addr` is the
peer address written by `accept`.  On full success the new client is
appended to the tailq (`TAILQ_INSERT_TAIL`), its read watcher is started
(`ev_io_start`), and the connect notice is printed.  On `calloc` failure
the handler returns after the diagnostic, leaving the accepted socket open. -/
def accept_cb (st : ServerState) (srv : Nat) (revErr : Bool)
    (acceptRes : Option Nat) (allocOk : Bool) (addr : Nat) :
    ServerState × List Action :=
  if revErr then
    (st, [Action.log LogMsg.invalidEvent])
  else
    match acceptRes with
    | none => (st, [Action.log LogMsg.acceptError])
    | some s =>
      let st1 := osAccept st srv s
      if allocOk then
        ({ st1 with
            registry := st1.registry ++ [s]
            activeWatchers := st1.activeWatchers ++ [s] },
          [Action.notice addr])
      else
        (st1, [Action.log LogMsg.mallocFailed])

/-- Outcome of `main`'s startup sequence: either an early `return
EXIT_FAILURE` after a diagnostic for operation `op`, or entry into the
`ev_loop` dispatch loop with the initial server state and the listening
socket. -/
inductive StartupResult where
  | fail (op : LogMsg) (exitCode : Nat)
  | loop (st : ServerState) (listenSocket : Nat)
deriving DecidableEq, Repr

/-- The client-visible state with which `main` enters the dispatch loop:
empty tailq (`TAILQ_INIT`), no client watchers, and the listening socket
`ls` open and in non-blocking mode. -/
def initState (ls : Nat) : ServerState :=
  { registry := []
    activeWatchers := []
    openSockets := [ls]
    nonBlocking := [ls] }

/-- `main` (lines 233-303), up to entering the dispatch loop.  `sockRes` is
the `socket` result (`none` for `INVALID_SOCKET`); the four `Bool`s are
whether `ioctlsocket (FIONBIO)`, `setsockopt (SO_REUSEADDR)`, `bind` and
`listen` return `0`.  Each failure reports via `socket_perror` and returns
`EXIT_FAILURE` (i.e. `1`) before the loop is ever entered. -/
def main_fn (sockRes : Option Nat)
    (ioctlOk sockoptOk bindOk listenOk : Bool) :
    StartupResult × List Action :=
  match sockRes with
  | none => (StartupResult.fail LogMsg.sockFail 1, [Action.log LogMsg.sockFail])
  | some ls =>
    if !ioctlOk then
      (StartupResult.fail LogMsg.ioctlFail 1, [Action.log LogMsg.ioctlFail])
    else if !sockoptOk then
      (StartupResult.fail LogMsg.setsockoptFail 1,
        [Action.setNonBlocking ls, Action.log LogMsg.setsockoptFail])
    else if !bindOk then
      (StartupResult.fail LogMsg.bindFail 1,
        [Action.setNonBlocking ls, Action.log LogMsg.bindFail])
    else if !listenOk then
      (StartupResult.fail LogMsg.listenFail 1,
        [Action.setNonBlocking ls, Action.log LogMsg.listenFail])
    else
      (StartupResult.loop (initState ls) ls, [Action.setNonBlocking ls])

/-- Erase the OS-reported outcome from a recorded send, so that traces can
be compared up to send success or failure. -/
def Action.stripResult : Action → Action
  | Action.send q d _ => Action.send q d true
  | a => a

/-- The registry invariant: no client appears twice in the tailq, a client
is in the tailq exactly when its socket is open and its read watcher is
active, and every active watcher belongs to an open socket. -/
def Inv (st : ServerState) : Prop :=
  st.registry.Nodup ∧
    (∀ p, p ∈ st.registry ↔ (p ∈ st.openSockets ∧ p ∈ st.activeWatchers)) ∧
    (∀ p, p ∈ st.activeWatchers → p ∈ st.openSockets)

/-- One dispatch-loop step: the loop invokes either `accept_cb` (with a
fresh handle from the OS on success — `accept` never returns a handle that
is already open) or `read_cb` on a client whose watcher is active. -/
inductive Step : ServerState → ServerState → Prop where
  | accept {st : ServerState} (srv : Nat) (revErr : Bool)
      (acceptRes : Option Nat) (allocOk : Bool) (addr : Nat)
      (hfresh : ∀ s, acceptRes = some s → s ∉ st.openSockets) :
      Step st (accept_cb st srv revErr acceptRes allocOk addr).1
  | read {st : ServerState} (c : Nat) (recvs : List RecvResult)
      (sendOk : Nat → List Nat → Bool)
      (hactive : c ∈ st.activeWatchers) :
      Step st (read_cb st c recvs sendOk).1

/-- Reachability of server states under dispatch-loop steps. -/
def Reachable : ServerState → ServerState → Prop :=
  Relation.ReflTransGen Step

/-- A concrete mid-run state used to evaluate the theorems: listening
socket `3`, two connected clients `5` and `7`. -/
def demoState : ServerState :=
  { registry := [5, 7]
    activeWatchers := [5, 7]
    openSockets := [3, 5, 7]
    nonBlocking := [3, 5, 7] }

/-- `read_cb` either leaves the state untouched or tears the reading client
down; no other state change is possible. -/
theorem read_cb_state_eq_or_teardown (st : ServerState) (c : Nat)
    (recvs : List RecvResult) (sendOk : Nat → List Nat → Bool) :
    (read_cb st c recvs sendOk).1 = st ∨
      (read_cb st c recvs sendOk).1 = teardown st c := by
  induction recvs with
  | nil => exact Or.inl rfl
  | cons r rest ih =>
    cases r with
    | wouldBlock => exact Or.inl rfl
    | err => exact Or.inr rfl
    | bytes data =>
      by_cases hd : data.isEmpty
      · simp [read_cb, hd]
      · simpa [read_cb, hd] using ih

/-- C2: when `recv` returns `0` (orderly close) or fails with an error other
than would-block, `read_cb` performs the full teardown in that same
invocation — it stops the client's watcher, removes it from the registry,
closes its socket, frees the client object — leaves every other client's
registration intact, and processes none of the remaining data for this
event. -/
theorem read_cb_teardown_on_close_or_error (st : ServerState) (c : Nat)
    (rest : List RecvResult) (sendOk : Nat → List Nat → Bool) (r : RecvResult)
    (hnd : st.registry.Nodup)
    (hr : r = RecvResult.bytes [] ∨ r = RecvResult.err) :
    read_cb st c (r :: rest) sendOk = (teardown st c, teardownActs c) ∧
    c ∉ (read_cb st c (r :: rest) sendOk).1.registry ∧
    c ∉ (read_cb st c (r :: rest) sendOk).1.activeWatchers ∧
    c ∉ (read_cb st c (r :: rest) sendOk).1.openSockets ∧
    (read_cb st c (r :: rest) sendOk).2 =
      [Action.stopWatcher c, Action.closeSock c, Action.freeClient c] ∧
    (∀ q, q ≠ c →
      ((q ∈ (read_cb st c (r :: rest) sendOk).1.registry ↔ q ∈ st.registry) ∧
       (q ∈ (read_cb st c (r :: rest) sendOk).1.activeWatchers ↔
         q ∈ st.activeWatchers))) := by
  have heq : read_cb st c (r :: rest) sendOk = (teardown st c, teardownActs c) := by
    rcases hr with h | h <;> subst h <;> simp [read_cb]
  rw [heq]
  refine ⟨rfl, hnd.not_mem_erase, ?_, ?_, rfl, ?_⟩
  · simp [teardown]
  · simp [teardown]
  · intro q hq
    refine ⟨?_, by simp [teardown, hq]⟩
    show q ∈ st.registry.erase c ↔ q ∈ st.registry
    rw [hnd.mem_erase_iff]
    simp [hq]

/-- C3: when `recv` reports would-block (after any number of successful
nonempty reads), `read_cb` exits with the state completely unchanged — the
client stays registered, its watcher stays armed, its socket stays open —
and no teardown happens. -/
theorem read_cb_wouldblock_preserves_state (st : ServerState) (c : Nat)
    (chunks : List (List Nat)) (rest : List RecvResult)
    (sendOk : Nat → List Nat → Bool)
    (h : ∀ d ∈ chunks, d ≠ []) :
    (read_cb st c
      (chunks.map RecvResult.bytes ++ RecvResult.wouldBlock :: rest)
      sendOk).1 = st := by
  induction chunks with
  | nil => rfl
  | cons d ds ih =>
    have hd : ¬ d.isEmpty = true := by
      simpa using h d (List.mem_cons_self d ds)
    have hds : ∀ x ∈ ds, x ≠ [] := fun x hx => h x (List.mem_cons_of_mem d hx)
    simpa [read_cb, hd] using ih hds

/-- C5: on a fully successful accept, exactly one new client — the one
wrapping the accepted socket — is appended to the registry, its read
watcher is started, and the connect notice carrying the peer's address is
emitted; no other registry entry is added or removed. -/
theorem accept_cb_success_adds_exactly_one (st : ServerState)
    (srv s addr : Nat) :
    ((accept_cb st srv false (some s) true addr).1.registry =
      st.registry ++ [s]) ∧
    ((accept_cb st srv false (some s) true addr).1.activeWatchers =
      st.activeWatchers ++ [s]) ∧
    ((accept_cb st srv false (some s) true addr).2 =
      [Action.notice addr]) :=
  ⟨rfl, rfl, rfl⟩

/-- C6: when `accept` fails, `accept_cb` logs the error and returns with no
side effects: the state (registry, watchers, sockets) is unchanged, no
client object is created, and the only action is the diagnostic. -/
theorem accept_cb_accept_failure_no_side_effects (st : ServerState)
    (srv : Nat) (allocOk : Bool) (addr : Nat) :
    accept_cb st srv false none allocOk addr =
      (st, [Action.log LogMsg.acceptError]) :=
  rfl

/-- C10: when `calloc` fails after a successful accept, `accept_cb` emits
the diagnostic and returns with the registry and watcher set unchanged, but
the accepted socket is left open — it is never closed. -/
theorem accept_cb_alloc_failure_leaves_socket_open (st : ServerState)
    (srv s addr : Nat) :
    ((accept_cb st srv false (some s) false addr).1.registry =
      st.registry) ∧
    ((accept_cb st srv false (some s) false addr).1.activeWatchers =
      st.activeWatchers) ∧
    ((accept_cb st srv false (some s) false addr).1.openSockets =
      st.openSockets ++ [s]) ∧
    ((accept_cb st srv false (some s) false addr).2 =
      [Action.log LogMsg.mallocFailed]) ∧
    Action.closeSock s ∉ (accept_cb st srv false (some s) false addr).2 := by
  refine ⟨rfl, rfl, rfl, rfl, ?_⟩
  simp [accept_cb, osAccept]

/-- C1: for every successful read of a nonempty chunk, `read_cb` sends
exactly that chunk, unmodified and in receipt order, once to every client
currently in the registry other than the reader, and never to the reader
itself: the whole action trace of a drain is the concatenation, chunk by
chunk in receipt order, of one send of the chunk's bytes to each other
registered client. -/
theorem read_cb_broadcasts_each_chunk_to_others (st : ServerState) (c : Nat)
    (chunks : List (List Nat)) (rest : List RecvResult)
    (sendOk : Nat → List Nat → Bool)
    (h : ∀ d ∈ chunks, d ≠ []) :
    (read_cb st c
      (chunks.map RecvResult.bytes ++ RecvResult.wouldBlock :: rest)
      sendOk).2 =
      chunks.flatMap (fun d =>
        (st.registry.filter (fun q => q ≠ c)).map
          (fun q => Action.send q d (sendOk q d))) := by
  induction chunks with
  | nil => rfl
  | cons d ds ih =>
    have hd : ¬ d.isEmpty = true := by
      simpa using h d (List.mem_cons_self d ds)
    have hds : ∀ x ∈ ds, x ≠ [] := fun x hx => h x (List.mem_cons_of_mem d hx)
    simp [read_cb, hd, broadcast, ih hds]

/-- Stripping the OS outcomes from a broadcast's sends leaves one send of
the data to each other registered client, independent of the outcomes. -/
theorem broadcast_strip_eq (registry : List Nat) (c : Nat) (data : List Nat)
    (sendOk : Nat → List Nat → Bool) :
    (broadcast registry c data sendOk).map Action.stripResult =
      (registry.filter (fun q => q ≠ c)).map
        (fun q => Action.send q data true) := by
  simp [broadcast, List.map_map, Function.comp_def, Action.stripResult]

/-- C8: a failed send during broadcast is invisible to the program: for any
two send-outcome oracles (e.g. one where every send succeeds and one where
some fail), `read_cb` produces the same final state — no registration is
removed or altered and the read loop is not perturbed — and the same action
trace up to the recorded outcomes, so no send is retried or skipped because
another send failed. -/
theorem read_cb_send_outcome_irrelevant (st : ServerState) (c : Nat)
    (recvs : List RecvResult) (sendOk sendOk' : Nat → List Nat → Bool) :
    (read_cb st c recvs sendOk).1 = (read_cb st c recvs sendOk').1 ∧
    (read_cb st c recvs sendOk).2.map Action.stripResult =
      (read_cb st c recvs sendOk').2.map Action.stripResult := by
  induction recvs with
  | nil => exact ⟨rfl, rfl⟩
  | cons r rest ih =>
    cases r with
    | wouldBlock => exact ⟨rfl, rfl⟩
    | err => exact ⟨rfl, rfl⟩
    | bytes data =>
      by_cases hd : data.isEmpty
      · simp [read_cb, hd]
      · refine ⟨?_, ?_⟩
        · simpa [read_cb, hd] using ih.1
        · simp [read_cb, hd, broadcast_strip_eq, ih.2]

/-- C4, counterexample: on a fully successful accept the handler registers
the new client without ever performing a set-non-blocking operation on the
accepted socket — `accept_cb` contains no `ioctlsocket (FIONBIO)` call, so
no such action appears in its trace. -/
theorem accept_cb_no_explicit_nonblocking_set :
    7 ∈ (accept_cb (ServerState.mk [] [] [3] [3]) 3 false
          (some 7) true 0).1.registry ∧
    Action.setNonBlocking 7 ∉
      (accept_cb (ServerState.mk [] [] [3] [3]) 3 false (some 7) true 0).2 := by
  decide

/-- C4, amended: the accepted socket is nevertheless in non-blocking mode
by the time the new client is registered, because a WinSock accepted socket
inherits the properties of the listening socket, and the listening socket
is non-blocking. -/
theorem accept_cb_inherited_nonblocking (st : ServerState)
    (srv s addr : Nat) (allocOk : Bool) (hnb : srv ∈ st.nonBlocking) :
    s ∈ (accept_cb st srv false (some s) allocOk addr).1.nonBlocking ∧
    (allocOk = true →
      s ∈ (accept_cb st srv false (some s) allocOk addr).1.registry) := by
  cases allocOk <;> simp [accept_cb, osAccept, hnb]

/-- Witness for `accept_cb_inherited_nonblocking` at a concrete state. -/
theorem accept_cb_inherited_nonblocking_witness :
    3 ∈ (ServerState.mk [] [] [3] [3]).nonBlocking ∧
    (7 ∈ (accept_cb (ServerState.mk [] [] [3] [3]) 3 false
            (some 7) true 0).1.nonBlocking ∧
      (true = true →
        7 ∈ (accept_cb (ServerState.mk [] [] [3] [3]) 3 false
              (some 7) true 0).1.registry)) :=
  ⟨by decide,
    accept_cb_inherited_nonblocking (ServerState.mk [] [] [3] [3]) 3 7 0 true
      (by decide)⟩

/-- C7: if creating the server socket, putting it in non-blocking mode,
setting `SO_REUSEADDR`, binding, or listening fails, `main` reports that
operation's failure and returns `EXIT_FAILURE` (nonzero exit status `1`)
without ever reaching the event dispatch loop. -/
theorem main_startup_failure_fatal (sockRes : Option Nat)
    (ioctlOk sockoptOk bindOk listenOk : Bool)
    (h : sockRes = none ∨ ioctlOk = false ∨ sockoptOk = false ∨
      bindOk = false ∨ listenOk = false) :
    (∃ op, (main_fn sockRes ioctlOk sockoptOk bindOk listenOk).1 =
        StartupResult.fail op 1 ∧
      Action.log op ∈ (main_fn sockRes ioctlOk sockoptOk bindOk listenOk).2) ∧
    ∀ st ls, (main_fn sockRes ioctlOk sockoptOk bindOk listenOk).1 ≠
      StartupResult.loop st ls := by
  cases sockRes with
  | none => exact ⟨⟨LogMsg.sockFail, rfl, by simp [main_fn]⟩, by simp [main_fn]⟩
  | some ls =>
    cases ioctlOk with
    | false =>
      exact ⟨⟨LogMsg.ioctlFail, by simp [main_fn], by simp [main_fn]⟩,
        by simp [main_fn]⟩
    | true =>
      cases sockoptOk with
      | false =>
        exact ⟨⟨LogMsg.setsockoptFail, by simp [main_fn], by simp [main_fn]⟩,
          by simp [main_fn]⟩
      | true =>
        cases bindOk with
        | false =>
          exact ⟨⟨LogMsg.bindFail, by simp [main_fn], by simp [main_fn]⟩,
            by simp [main_fn]⟩
        | true =>
          cases listenOk with
          | false =>
            exact ⟨⟨LogMsg.listenFail, by simp [main_fn], by simp [main_fn]⟩,
              by simp [main_fn]⟩
          | true => simp at h

/-- Witness for `main_startup_failure_fatal`: a failing `bind`. -/
theorem main_startup_failure_fatal_witness :
    ((some 3 : Option Nat) = none ∨ true = false ∨ true = false ∨
      false = false ∨ true = false) ∧
    ((∃ op, (main_fn (some 3) true true false true).1 =
        StartupResult.fail op 1 ∧
      Action.log op ∈ (main_fn (some 3) true true false true).2) ∧
    ∀ st ls, (main_fn (some 3) true true false true).1 ≠
      StartupResult.loop st ls) :=
  ⟨by decide, main_startup_failure_fatal (some 3) true true false true
    (by decide)⟩

/-- Teardown preserves the registry invariant. -/
theorem teardown_inv (st : ServerState) (c : Nat) (hinv : Inv st) :
    Inv (teardown st c) := by
  obtain ⟨hnd, hiff, hsub⟩ := hinv
  refine ⟨hnd.erase c, ?_, ?_⟩
  · intro p
    constructor
    · intro hp
      obtain ⟨hpc, hpr⟩ := hnd.mem_erase_iff.mp hp
      obtain ⟨ho, ha⟩ := (hiff p).mp hpr
      exact ⟨by simp [teardown, hpc, ho], by simp [teardown, hpc, ha]⟩
    · rintro ⟨ho, ha⟩
      have ho' : p ∈ st.openSockets ∧ p ≠ c := by
        simpa [teardown] using ho
      have ha' : p ∈ st.activeWatchers ∧ p ≠ c := by
        simpa [teardown] using ha
      exact hnd.mem_erase_iff.mpr ⟨ho'.2, (hiff p).mpr ⟨ho'.1, ha'.1⟩⟩
  · intro p hp
    have hp' : p ∈ st.activeWatchers ∧ p ≠ c := by
      simpa [teardown] using hp
    show p ∈ (teardown st c).openSockets
    simp [teardown, hsub p hp'.1, hp'.2]

/-- `accept_cb` preserves the registry invariant, given that a successful
`accept` returns a handle that is not already open. -/
theorem accept_cb_inv (st : ServerState) (srv : Nat) (revErr : Bool)
    (acceptRes : Option Nat) (allocOk : Bool) (addr : Nat)
    (hfresh : ∀ s, acceptRes = some s → s ∉ st.openSockets)
    (hinv : Inv st) :
    Inv (accept_cb st srv revErr acceptRes allocOk addr).1 := by
  obtain ⟨hnd, hiff, hsub⟩ := hinv
  cases revErr with
  | true => exact ⟨hnd, hiff, hsub⟩
  | false =>
    cases acceptRes with
    | none => exact ⟨hnd, hiff, hsub⟩
    | some s =>
      have hs : s ∉ st.openSockets := hfresh s rfl
      have hsa : s ∉ st.activeWatchers := fun hx => hs (hsub s hx)
      have hsr : s ∉ st.registry := fun hx => hs ((hiff s).mp hx).1
      cases allocOk with
      | false =>
        refine ⟨hnd, ?_, ?_⟩
        · intro p
          show p ∈ st.registry ↔
            p ∈ st.openSockets ++ [s] ∧ p ∈ st.activeWatchers
          constructor
          · intro hp
            obtain ⟨ho, ha⟩ := (hiff p).mp hp
            exact ⟨by simp [ho], ha⟩
          · rintro ⟨_, ha⟩
            exact (hiff p).mpr ⟨hsub p ha, ha⟩
        · intro p hp
          show p ∈ st.openSockets ++ [s]
          simp [hsub p hp]
      | true =>
        refine ⟨?_, ?_, ?_⟩
        · show (st.registry ++ [s]).Nodup
          rw [List.nodup_append]
          refine ⟨hnd, List.nodup_singleton s, ?_⟩
          intro a ha hb
          rw [List.mem_singleton] at hb
          subst hb
          exact hsr ha
        · intro p
          show p ∈ st.registry ++ [s] ↔
            p ∈ st.openSockets ++ [s] ∧ p ∈ st.activeWatchers ++ [s]
          simp only [List.mem_append, List.mem_singleton]
          constructor
          · rintro (hp | rfl)
            · obtain ⟨ho, ha⟩ := (hiff p).mp hp
              exact ⟨Or.inl ho, Or.inl ha⟩
            · exact ⟨Or.inr rfl, Or.inr rfl⟩
          · rintro ⟨ho, ha⟩
            rcases ha with ha | rfl
            · rcases ho with ho | rfl
              · exact Or.inl ((hiff p).mpr ⟨ho, ha⟩)
              · exact absurd ha hsa
            · exact Or.inr rfl
        · intro p hp
          have hp' : p ∈ st.activeWatchers ++ [s] := hp
          show p ∈ st.openSockets ++ [s]
          simp only [List.mem_append, List.mem_singleton] at hp' ⊢
          rcases hp' with hp' | rfl
          · exact Or.inl (hsub p hp')
          · exact Or.inr rfl

/-- Every dispatch-loop step preserves the registry invariant. -/
theorem step_inv {st st' : ServerState} (hs : Step st st') (hinv : Inv st) :
    Inv st' := by
  cases hs with
  | accept srv revErr acceptRes allocOk addr hfresh =>
    exact accept_cb_inv st srv revErr acceptRes allocOk addr hfresh hinv
  | read c recvs sendOk hactive =>
    rcases read_cb_state_eq_or_teardown st c recvs sendOk with h | h
    · rw [h]; exact hinv
    · rw [h]; exact teardown_inv st c hinv

/-- The state in which `main` enters the dispatch loop satisfies the
registry invariant. -/
theorem initState_inv (ls : Nat) : Inv (initState ls) := by
  refine ⟨List.nodup_nil, ?_, ?_⟩ <;> simp [initState]

/-- C9: in every state reachable from `main`'s initial empty registry by
any sequence of accept and read-readiness callbacks, no client appears
twice in the registry, and a client is in the registry exactly when its
socket is open and its read watcher is active. -/
theorem reachable_registry_invariant (ls : Nat) (st : ServerState)
    (h : Reachable (initState ls) st) :
    st.registry.Nodup ∧
    ∀ p, p ∈ st.registry ↔ (p ∈ st.openSockets ∧ p ∈ st.activeWatchers) := by
  have h' : Relation.ReflTransGen Step (initState ls) st := h
  clear h
  have hinv : Inv st := by
    induction h' with
    | refl => exact initState_inv ls
    | tail _ hstep ih => exact step_inv hstep ih
  exact ⟨hinv.1, hinv.2.1⟩

/-- Witness for `reachable_registry_invariant`: the state after one
successful accept of client `7` starting from the initial state. -/
theorem reachable_registry_invariant_witness :
    Reachable (initState 3)
      (accept_cb (initState 3) 3 false (some 7) true 0).1 ∧
    ((accept_cb (initState 3) 3 false (some 7) true 0).1.registry.Nodup ∧
      ∀ p, p ∈ (accept_cb (initState 3) 3 false (some 7) true 0).1.registry ↔
        (p ∈ (accept_cb (initState 3) 3 false (some 7) true 0).1.openSockets ∧
          p ∈ (accept_cb (initState 3) 3 false (some 7) true 0).1.activeWatchers)) := by
  have hstep : Step (initState 3) (accept_cb (initState 3) 3 false (some 7) true 0).1 :=
    Step.accept 3 false (some 7) true 0
      (by intro s hs; cases hs; decide)
  have hreach : Reachable (initState 3)
      (accept_cb (initState 3) 3 false (some 7) true 0).1 :=
    Relation.ReflTransGen.single hstep
  exact ⟨hreach,
    reachable_registry_invariant 3 (accept_cb (initState 3) 3 false (some 7) true 0).1 hreach⟩

/-- Witness for `read_cb_broadcasts_each_chunk_to_others`: client `5` reads
one chunk `[10, 20]` and it is sent to client `7` only. -/
theorem read_cb_broadcasts_witness :
    (∀ d ∈ [[10, 20]], d ≠ ([] : List Nat)) ∧
    (read_cb demoState 5
      ([[10, 20]].map RecvResult.bytes ++ RecvResult.wouldBlock :: [])
      (fun _ _ => true)).2 =
      [[10, 20]].flatMap (fun d =>
        (demoState.registry.filter (fun q => q ≠ 5)).map
          (fun q => Action.send q d ((fun _ _ => true) q d))) :=
  ⟨by decide,
    read_cb_broadcasts_each_chunk_to_others demoState 5 [[10, 20]] []
      (fun _ _ => true) (by decide)⟩

/-- Witness for `read_cb_teardown_on_close_or_error`: client `5` gets a
hard `recv` error and is fully torn down. -/
theorem read_cb_teardown_witness :
    (demoState.registry.Nodup ∧
      (RecvResult.err = RecvResult.bytes [] ∨ RecvResult.err = RecvResult.err)) ∧
    (read_cb demoState 5 (RecvResult.err :: []) (fun _ _ => true) =
        (teardown demoState 5, teardownActs 5) ∧
      5 ∉ (read_cb demoState 5 (RecvResult.err :: []) (fun _ _ => true)).1.registry ∧
      5 ∉ (read_cb demoState 5 (RecvResult.err :: []) (fun _ _ => true)).1.activeWatchers ∧
      5 ∉ (read_cb demoState 5 (RecvResult.err :: []) (fun _ _ => true)).1.openSockets ∧
      (read_cb demoState 5 (RecvResult.err :: []) (fun _ _ => true)).2 =
        [Action.stopWatcher 5, Action.closeSock 5, Action.freeClient 5] ∧
      (∀ q, q ≠ 5 →
        ((q ∈ (read_cb demoState 5 (RecvResult.err :: []) (fun _ _ => true)).1.registry ↔
            q ∈ demoState.registry) ∧
          (q ∈ (read_cb demoState 5 (RecvResult.err :: []) (fun _ _ => true)).1.activeWatchers ↔
            q ∈ demoState.activeWatchers)))) :=
  ⟨⟨by decide, Or.inr rfl⟩,
    read_cb_teardown_on_close_or_error demoState 5 [] (fun _ _ => true)
      RecvResult.err (by decide) (Or.inr rfl)⟩

/-- Witness for `read_cb_wouldblock_preserves_state`: client `5` reads one
chunk, then would-block; the state is unchanged. -/
theorem read_cb_wouldblock_witness :
    (∀ d ∈ [[9]], d ≠ ([] : List Nat)) ∧
    (read_cb demoState 5
      ([[9]].map RecvResult.bytes ++ RecvResult.wouldBlock :: [])
      (fun _ _ => true)).1 = demoState :=
  ⟨by decide,
    read_cb_wouldblock_preserves_state demoState 5 [[9]] []
      (fun _ _ => true) (by decide)⟩

end ChatServer
